import Mathlib

set_option maxHeartbeats 1000000
set_option maxRecDepth 100000

/-!
Shallow embedding of the ZeroGravityJudge contract
(src/smart-contracts/src/ZeroGravityJudge.sol).

Modelling conventions:
- Addresses and EVM words are natural numbers; 0 is the zero address.
- Solidity 0.8 checked arithmetic is modelled explicitly: every addition the
  source performs on uint256 values is guarded by a bound check that produces
  an Overflow outcome (a Solidity panic revert) when the mathematical sum
  does not fit in 256 bits.
- A mapping with value type bool is modelled as the list of keys currently
  set to true, looked up with list membership. In particular the loop in
  createWager that sets isArbitrator of every array entry to true makes the
  membership test exactly "the address occurs in the arbitrators array", so
  the profile stores only the array and membership is list membership.
- Each external function is a pure function from the contract state and the
  call arguments to an Except value: an ok result carries the post state and
  the list of emitted events, an error result is a revert, after which the
  EVM restores the pre state, so a reverting call has no state component.
- ECDSA.recover is an external cryptographic primitive; its result is passed
  to submitReceipt as an oracle argument of type Option Address, where none
  models the revert OpenZeppelin's ECDSA library performs on an invalid
  signature and some g models successful recovery of signer g.
- External token calls (safeTransferFrom, safeTransfer) are recorded as
  events that carry the wager record as stored at the moment of the call,
  which is what reentrant external code could observe.
-/

namespace ZeroGravity

/-- Addresses are modelled as natural numbers; 0 is the zero address. -/
abbrev Address := Nat

/-- Decidable equality of call outcomes, for concrete evaluation. -/
instance exceptDecEq {e a : Type} [DecidableEq e] [DecidableEq a] :
    DecidableEq (Except e a)
  | .error x, .error y =>
    if h : x = y then .isTrue (by rw [h]) else .isFalse (by simp [h])
  | .error _, .ok _ => .isFalse (by simp)
  | .ok _, .error _ => .isFalse (by simp)
  | .ok x, .ok y =>
    if h : x = y then .isTrue (by rw [h]) else .isFalse (by simp [h])

/-- Modulus of the EVM word type uint256. -/
def U256 : Nat := 2 ^ 256

/-- Modulus of uint96, the type of confidenceBps in a receipt. -/
def U96 : Nat := 2 ^ 96

/-- The custom errors of ZeroGravityJudge.sol, plus the two revert causes
that are not custom errors of the contract: an ECDSA recovery failure and a
checked-arithmetic overflow panic. -/
inductive JudgeError where
  | NotParty
  | InvalidParams
  | AlreadyFunded
  | NotFunded
  | AlreadyResolved
  | NotArbitrator
  | DuplicateReceipt
  | ConfidenceTooLow
  | UnknownWinner
  | EcdsaInvalidSignature
  | Overflow
deriving DecidableEq

/-- The Side enum of the contract. -/
inductive Side where
  | A
  | B
deriving DecidableEq

/-- ArbitrationProfile struct. The isArbitrator mapping is exactly
membership in the arbitrators array (see the loop in createWager), so only
the array is stored. -/
structure ArbitrationProfile where
  confidenceThresholdBps : Nat
  m : Nat
  n : Nat
  arbitrators : List Address
deriving DecidableEq

/-- Wager struct. The arbitratorHasVoted mapping is modelled as the list of
arbitrators that have voted, looked up by membership. -/
structure Wager where
  partyA : Address
  partyB : Address
  token : Address
  stakeARequired : Nat
  stakeBRequired : Nat
  stakeA : Nat
  stakeB : Nat
  claim : String
  sources : String
  evidenceRoot : Nat
  evidenceURI : String
  fundedA : Bool
  fundedB : Bool
  resolved : Bool
  winner : Address
  winningConfidenceBps : Nat
  profile : ArbitrationProfile
  arbitratorHasVoted : List Address
  votesForA : Nat
  votesForB : Nat
deriving DecidableEq

/-- ArbitrationReceipt struct. -/
structure ArbitrationReceipt where
  wagerId : Nat
  winner : Address
  confidenceBps : Nat
  traceURI : String
  timestamp : Nat
deriving DecidableEq

/-- The zero-initialized Wager an EVM mapping yields for an absent key. -/
def defaultWager : Wager :=
  { partyA := 0
    partyB := 0
    token := 0
    stakeARequired := 0
    stakeBRequired := 0
    stakeA := 0
    stakeB := 0
    claim := ""
    sources := ""
    evidenceRoot := 0
    evidenceURI := ""
    fundedA := false
    fundedB := false
    resolved := false
    winner := 0
    winningConfidenceBps := 0
    profile := { confidenceThresholdBps := 0, m := 0, n := 0, arbitrators := [] }
    arbitratorHasVoted := []
    votesForA := 0
    votesForB := 0 }

/-- Contract storage: nextWagerId and the private wagers mapping, the latter
as an association list where the most recent binding of a key shadows older
ones. -/
structure JudgeState where
  nextWagerId : Nat
  wagers : List (Nat × Wager)
deriving DecidableEq

/-- State of the freshly deployed contract. -/
def initState : JudgeState := { nextWagerId := 0, wagers := [] }

/-- Reading the wagers mapping: the zero-initialized record for unknown
keys. -/
def getWager (s : JudgeState) (id : Nat) : Wager :=
  (List.lookup id s.wagers).getD defaultWager

/-- Writing one slot of the wagers mapping. -/
def setWager (s : JudgeState) (id : Nat) (w : Wager) : JudgeState :=
  { s with wagers := (id, w) :: s.wagers }

/-- Events of the contract, plus the two external ERC20 calls. The token
call events carry the wager record as stored at the moment of the external
call, which is what a reentrant callee could observe. -/
inductive Event where
  | WagerCreated (id partyA partyB token stakeARequired stakeBRequired
      confidenceThresholdBps m n : Nat)
  | EscrowFunded (id party amount : Nat)
  | EvidenceAttached (id : Nat) (root : Nat) (uri : String)
  | ReceiptAccepted (id arbitrator winner confidenceBps : Nat) (traceURI : String)
  | Resolved (id winner confidenceBps : Nat)
  | Payout (id winner amount : Nat)
  | TokenTransferFrom (token fromAddr amount : Nat) (storageAtCall : Wager)
  | TokenTransfer (token toAddr amount : Nat) (storageAtCall : Wager)
deriving DecidableEq

/-- createWager, lines 106 to 151 of the source. The caller becomes partyA.
The field n is assigned the uint8 cast of the arbitrators array length,
hence the mod 256. Returns the new id as the source function does. -/
def createWager (s : JudgeState) (sender : Address) (partyB token : Address)
    (stakeARequired stakeBRequired : Nat) (claim sources : String)
    (confidenceThresholdBps : Nat) (m : Nat) (arbitrators : List Address) :
    Except JudgeError (JudgeState × Nat × List Event) :=
  if partyB = 0 ∨ token = 0 then .error .InvalidParams
  else if stakeARequired = 0 ∨ stakeBRequired = 0 then .error .InvalidParams
  else if confidenceThresholdBps = 0 ∨ confidenceThresholdBps > 10000 then
    .error .InvalidParams
  else if arbitrators.length = 0 then .error .InvalidParams
  else if m = 0 ∨ m > arbitrators.length then .error .InvalidParams
  else if s.nextWagerId + 1 < U256 then
    let id := s.nextWagerId + 1
    let w : Wager :=
      { defaultWager with
        partyA := sender
        partyB := partyB
        token := token
        stakeARequired := stakeARequired
        stakeBRequired := stakeBRequired
        claim := claim
        sources := sources
        profile :=
          { confidenceThresholdBps := confidenceThresholdBps
            m := m
            n := arbitrators.length % 256
            arbitrators := arbitrators } }
    .ok ({ nextWagerId := id, wagers := (id, w) :: s.wagers }, id,
      [Event.WagerCreated id sender partyB token stakeARequired stakeBRequired
        confidenceThresholdBps m (arbitrators.length % 256)])
  else .error .Overflow

/-- fundEscrow, lines 154 to 174 of the source. The safeTransferFrom call
precedes the funded flag and balance updates, so the transfer event carries
the not yet updated wager record. -/
def fundEscrow (s : JudgeState) (sender : Address) (id : Nat) (side : Side) :
    Except JudgeError (JudgeState × List Event) :=
  let w := getWager s id
  if w.partyA = 0 then .error .InvalidParams
  else if w.resolved then .error .AlreadyResolved
  else
    match side with
    | .A =>
      if sender ≠ w.partyA then .error .NotParty
      else if w.fundedA then .error .AlreadyFunded
      else if w.stakeA + w.stakeARequired < U256 then
        let w1 := { w with fundedA := true, stakeA := w.stakeA + w.stakeARequired }
        .ok (setWager s id w1,
          [Event.TokenTransferFrom w.token sender w.stakeARequired w,
           Event.EscrowFunded id sender w.stakeARequired])
      else .error .Overflow
    | .B =>
      if sender ≠ w.partyB then .error .NotParty
      else if w.fundedB then .error .AlreadyFunded
      else if w.stakeB + w.stakeBRequired < U256 then
        let w1 := { w with fundedB := true, stakeB := w.stakeB + w.stakeBRequired }
        .ok (setWager s id w1,
          [Event.TokenTransferFrom w.token sender w.stakeBRequired w,
           Event.EscrowFunded id sender w.stakeBRequired])
      else .error .Overflow

/-- attachEvidence, lines 177 to 183 of the source. No existence, funding or
resolution check: only the party check. -/
def attachEvidence (s : JudgeState) (sender : Address) (id : Nat)
    (root : Nat) (uri : String) :
    Except JudgeError (JudgeState × List Event) :=
  let w := getWager s id
  if sender ≠ w.partyA ∧ sender ≠ w.partyB then .error .NotParty
  else
    .ok (setWager s id { w with evidenceRoot := root, evidenceURI := uri },
      [Event.EvidenceAttached id root uri])

/-- The private function of lines 236 to 251 of the source. The balances are
zeroed before the external safeTransfer call; accordingly the TokenTransfer
event carries the already zeroed record. The pot addition is uint256
checked. -/
def finalizeWager (s : JudgeState) (id : Nat) (winner : Address)
    (confidenceBps : Nat) :
    Except JudgeError (JudgeState × List Event) :=
  let w := getWager s id
  if w.resolved then .error .AlreadyResolved
  else if w.stakeA + w.stakeB < U256 then
    let pot := w.stakeA + w.stakeB
    let w2 := { w with
      resolved := true
      winner := winner
      winningConfidenceBps := confidenceBps
      stakeA := 0
      stakeB := 0 }
    .ok (setWager s id w2,
      [Event.Resolved id winner confidenceBps,
       Event.TokenTransfer w.token winner pot w2,
       Event.Payout id winner pot])
  else .error .Overflow

/-- The tail of submitReceipt after the vote has been recorded in w2 and
written back, lines 208 to 214 of the source: emit ReceiptAccepted, then
finalize if either count reached m. -/
def afterVote (s : JudgeState) (r : ArbitrationReceipt) (signer : Address)
    (w2 : Wager) :
    Except JudgeError (JudgeState × List Event) :=
  let s2 := setWager s r.wagerId w2
  let ev := Event.ReceiptAccepted r.wagerId signer r.winner r.confidenceBps r.traceURI
  if w2.profile.m ≤ w2.votesForA then
    match finalizeWager s2 r.wagerId w2.partyA r.confidenceBps with
    | .ok (s3, evs2) => .ok (s3, ev :: evs2)
    | .error e => .error e
  else if w2.profile.m ≤ w2.votesForB then
    match finalizeWager s2 r.wagerId w2.partyB r.confidenceBps with
    | .ok (s3, evs2) => .ok (s3, ev :: evs2)
    | .error e => .error e
  else .ok (s2, [ev])

/-- submitReceipt, lines 186 to 215 of the source. The recovered argument is
the outcome of ECDSA.recover on the typed-data digest: none if recovery
reverts, some signer otherwise. Vote increments are uint256 checked. -/
def submitReceipt (s : JudgeState) (r : ArbitrationReceipt)
    (recovered : Option Address) :
    Except JudgeError (JudgeState × List Event) :=
  let w := getWager s r.wagerId
  if w.partyA = 0 then .error .InvalidParams
  else if w.fundedA = false ∨ w.fundedB = false then .error .NotFunded
  else if w.resolved then .error .AlreadyResolved
  else
    match recovered with
    | none => .error .EcdsaInvalidSignature
    | some signer =>
      if signer ∉ w.profile.arbitrators then .error .NotArbitrator
      else if signer ∈ w.arbitratorHasVoted then .error .DuplicateReceipt
      else if r.confidenceBps < w.profile.confidenceThresholdBps then
        .error .ConfidenceTooLow
      else if r.winner ≠ w.partyA ∧ r.winner ≠ w.partyB then .error .UnknownWinner
      else
        let w1 := { w with arbitratorHasVoted := signer :: w.arbitratorHasVoted }
        if r.winner = w.partyA then
          if w1.votesForA + 1 < U256 then
            afterVote s r signer { w1 with votesForA := w1.votesForA + 1 }
          else .error .Overflow
        else
          if w1.votesForB + 1 < U256 then
            afterVote s r signer { w1 with votesForB := w1.votesForB + 1 }
          else .error .Overflow

/-- One externally visible transaction of the contract. Senders are nonzero
because a transaction origin is never the zero address; arguments carry the
bounds imposed by their Solidity parameter types where those bounds matter
to the state evolution: m is uint8, confidenceThresholdBps is uint16,
stakes are uint256, an evidence root is bytes32, and confidenceBps of a
receipt is uint96. -/
inductive Step : JudgeState → JudgeState → Prop where
  | create {s s' : JudgeState} {sender partyB token : Address}
      {stakeARequired stakeBRequired : Nat} {claim sources : String}
      {confidenceThresholdBps m : Nat} {arbitrators : List Address}
      {id : Nat} {evs : List Event} :
      sender ≠ 0 → m < 256 → confidenceThresholdBps < 65536 →
      stakeARequired < U256 → stakeBRequired < U256 →
      createWager s sender partyB token stakeARequired stakeBRequired
        claim sources confidenceThresholdBps m arbitrators = .ok (s', id, evs) →
      Step s s'
  | fund {s s' : JudgeState} {sender : Address} {id : Nat} {side : Side}
      {evs : List Event} :
      sender ≠ 0 →
      fundEscrow s sender id side = .ok (s', evs) →
      Step s s'
  | evidence {s s' : JudgeState} {sender : Address} {id root : Nat}
      {uri : String} {evs : List Event} :
      sender ≠ 0 → root < U256 →
      attachEvidence s sender id root uri = .ok (s', evs) →
      Step s s'
  | receipt {s s' : JudgeState} {r : ArbitrationReceipt}
      {recovered : Option Address} {evs : List Event} :
      r.confidenceBps < U96 →
      submitReceipt s r recovered = .ok (s', evs) →
      Step s s'

/-- States reachable from the freshly deployed contract. -/
inductive Reachable : JudgeState → Prop where
  | init : Reachable initState
  | step {s s' : JudgeState} : Reachable s → Step s s' → Reachable s'

/-- Post state of a call that may revert: on an ok outcome the new state,
on a revert the EVM keeps the old state. -/
def runCall (s : JudgeState) : Except JudgeError (JudgeState × List Event) → JudgeState
  | .ok (s', _) => s'
  | .error _ => s

/-- State component of an ok outcome, for building concrete scenarios. -/
def okState : Except JudgeError (JudgeState × List Event) → JudgeState
  | .ok (s', _) => s'
  | .error _ => initState

/-- Event component of an ok outcome. -/
def okEvents : Except JudgeError (JudgeState × List Event) → List Event
  | .ok (_, evs) => evs
  | .error _ => []

/-- State component of an ok createWager outcome. -/
def okStateC : Except JudgeError (JudgeState × Nat × List Event) → JudgeState
  | .ok (s', _, _) => s'
  | .error _ => initState

/-- Event component of an ok createWager outcome. -/
def okEventsC : Except JudgeError (JudgeState × Nat × List Event) → List Event
  | .ok (_, _, evs) => evs
  | .error _ => []

/-- Error component of a call outcome, none on success. -/
def errOf : Except JudgeError (JudgeState × List Event) → Option JudgeError
  | .ok _ => none
  | .error e => some e

/-- The record written by the vote bookkeeping of submitReceipt, lines 201
to 207 of the source: the signer is added to the voted set and the count of
the claimed winner is incremented. -/
def voteWager (w : Wager) (signer : Address) (r : ArbitrationReceipt) : Wager :=
  if r.winner = w.partyA then
    { w with arbitratorHasVoted := signer :: w.arbitratorHasVoted,
             votesForA := w.votesForA + 1 }
  else
    { w with arbitratorHasVoted := signer :: w.arbitratorHasVoted,
             votesForB := w.votesForB + 1 }

/-- The record written by finalizeWager: resolved, winner and confidence
set, both escrow balances zeroed. -/
def finalWager (w : Wager) (winner : Address) (confidenceBps : Nat) : Wager :=
  { w with
    resolved := true
    winner := winner
    winningConfidenceBps := confidenceBps
    stakeA := 0
    stakeB := 0 }

/-- Inductive invariant of a single wager slot. The slot for an id that was
never created is the zero record, whose partyA is 0; createWager always sets
partyA to the nonzero sender, so partyA equal 0 characterizes absence. -/
structure WagerInv (w : Wager) : Prop where
  ghost : w.partyA = 0 → w = defaultWager
  m_pos : w.partyA ≠ 0 → 1 ≤ w.profile.m
  m_lt256 : w.partyA ≠ 0 → w.profile.m < 256
  n_mod : w.profile.n = w.profile.arbitrators.length % 256
  voted_nodup : w.arbitratorHasVoted.Nodup
  voted_mem : ∀ a ∈ w.arbitratorHasVoted, a ∈ w.profile.arbitrators
  votes_sum : w.votesForA + w.votesForB = w.arbitratorHasVoted.length
  unresolved_votes : w.partyA ≠ 0 → w.resolved = false →
    w.votesForA < w.profile.m ∧ w.votesForB < w.profile.m
  unresolved_stakes : w.resolved = false →
    w.stakeA = (if w.fundedA then w.stakeARequired else 0) ∧
    w.stakeB = (if w.fundedB then w.stakeBRequired else 0)
  resolved_votes : w.resolved = true →
    w.profile.m ≤ w.votesForA ∨ w.profile.m ≤ w.votesForB
  resolved_funded : w.resolved = true →
    w.fundedA = true ∧ w.fundedB = true ∧ w.partyA ≠ 0
  resolved_conf : w.resolved = true →
    w.profile.confidenceThresholdBps ≤ w.winningConfidenceBps ∧
    w.winningConfidenceBps < U96

/-- Inductive invariant of the contract state: every slot of the wagers
mapping satisfies the per-wager invariant. -/
def Inv (s : JudgeState) : Prop := ∀ id, WagerInv (getWager s id)

/-! Concrete scenario of section 8 of the specification: partyA is address
1, partyB is address 2, the token is address 3, arbitrators are addresses
10, 11, 12 with m equal 2 and a confidence threshold of 8000 bps, both
stakes 100. -/

/-- Demo receipt of arbitrator 10: winner partyA, confidence 9000. -/
def rX : ArbitrationReceipt :=
  { wagerId := 1, winner := 1, confidenceBps := 9000, traceURI := "tX", timestamp := 1 }

/-- Demo receipt of arbitrator 11: winner partyA, confidence 8500. -/
def rY : ArbitrationReceipt :=
  { wagerId := 1, winner := 1, confidenceBps := 8500, traceURI := "tY", timestamp := 2 }

/-- Demo receipt of arbitrator 10 with confidence 7000, below the 8000
threshold. -/
def rLow : ArbitrationReceipt :=
  { wagerId := 1, winner := 1, confidenceBps := 7000, traceURI := "tL", timestamp := 3 }

/-- Scenario state after createWager. -/
def s1 : JudgeState :=
  okStateC (createWager initState 1 2 3 100 100 "claim" "sources" 8000 2 [10, 11, 12])

/-- Scenario state after partyA funded. -/
def s2 : JudgeState := okState (fundEscrow s1 1 1 Side.A)

/-- Scenario state after both parties funded. -/
def s3 : JudgeState := okState (fundEscrow s2 2 1 Side.B)

/-- Scenario state after arbitrator 10 voted: one vote for partyA, not
resolved. -/
def s4 : JudgeState := okState (submitReceipt s3 rX (some 10))

/-- Scenario state after arbitrator 11 voted: two votes for partyA, wager
resolved. -/
def s5 : JudgeState := okState (submitReceipt s4 rY (some 11))

/-! A second chain in which the accepted receipt claims confidence 20000,
above 10000: createWager only bounds the threshold by 10000, submitReceipt
only checks the receipt confidence from below. -/

/-- Receipt of arbitrator 10 with confidence 20000, twice the nominal
10000 bps ceiling. -/
def rHi : ArbitrationReceipt :=
  { wagerId := 1, winner := 1, confidenceBps := 20000, traceURI := "tH", timestamp := 4 }

/-- High-confidence chain: wager with a single arbitrator 10, m equal 1. -/
def h1 : JudgeState :=
  okStateC (createWager initState 1 2 3 100 100 "claim" "sources" 8000 1 [10])

/-- High-confidence chain after partyA funded. -/
def h2 : JudgeState := okState (fundEscrow h1 1 1 Side.A)

/-- High-confidence chain after both funded. -/
def h3 : JudgeState := okState (fundEscrow h2 2 1 Side.B)

/-- High-confidence chain after the confidence 20000 receipt: resolved with
winningConfidenceBps 20000. -/
def h4 : JudgeState := okState (submitReceipt h3 rHi (some 10))

/-! A third chain whose panel has 256 arbitrators: the uint8 cast in
createWager stores n equal 256 mod 256 equal 0. -/

/-- A panel of 256 distinct arbitrator addresses 100 to 355. -/
def bigArbs : List Address := (List.range 256).map (fun i => 100 + i)

/-- Receipt of arbitrator 100 on the big-panel wager. -/
def rBig : ArbitrationReceipt :=
  { wagerId := 1, winner := 1, confidenceBps := 9000, traceURI := "tB", timestamp := 5 }

/-- Big-panel chain: wager with 256 arbitrators, m equal 1. -/
def g1 : JudgeState :=
  okStateC (createWager initState 1 2 3 100 100 "claim" "sources" 8000 1 bigArbs)

/-- Big-panel chain after partyA funded. -/
def g2 : JudgeState := okState (fundEscrow g1 1 1 Side.A)

/-- Big-panel chain after both funded. -/
def g3 : JudgeState := okState (fundEscrow g2 2 1 Side.B)

/-- Big-panel chain after arbitrator 100 voted: one vote, stored n is 0. -/
def g4 : JudgeState := okState (submitReceipt g3 rBig (some 100))

/-- Spec section 4.1, submitReceipt preconditions, written after the words
of the specification: the first violated precondition in the spec's listed
order determines the error; none when every listed check passes. This
definition follows the spec text, not the source, and exists only to be
compared with the submitReceipt function translated from the source. -/
def submitReceiptFirstViolation (s : JudgeState) (r : ArbitrationReceipt)
    (recovered : Option Address) : Option JudgeError :=
  let w := getWager s r.wagerId
  if w.partyA = 0 then some .InvalidParams
  else if w.fundedA = false ∨ w.fundedB = false then some .NotFunded
  else if w.resolved then some .AlreadyResolved
  else
    match recovered with
    | none => some .EcdsaInvalidSignature
    | some signer =>
      if signer ∉ w.profile.arbitrators then some .NotArbitrator
      else if signer ∈ w.arbitratorHasVoted then some .DuplicateReceipt
      else if r.confidenceBps < w.profile.confidenceThresholdBps then
        some .ConfidenceTooLow
      else if r.winner ≠ w.partyA ∧ r.winner ≠ w.partyB then some .UnknownWinner
      else none

/-- The party a fundEscrow side refers to. -/
def partyOf (w : Wager) (side : Side) : Address :=
  match side with
  | .A => w.partyA
  | .B => w.partyB

/-- The funded flag a fundEscrow side refers to. -/
def fundedOf (w : Wager) (side : Side) : Bool :=
  match side with
  | .A => w.fundedA
  | .B => w.fundedB

theorem getWager_setWager_self (s : JudgeState) (id : Nat) (w : Wager) :
    getWager (setWager s id w) id = w := by
  simp [getWager, setWager, List.lookup]

theorem getWager_setWager_ne (s : JudgeState) (id j : Nat) (w : Wager)
    (h : j ≠ id) : getWager (setWager s id w) j = getWager s j := by
  have hb : (j == id) = false := beq_eq_false_iff_ne.mpr h
  simp [getWager, setWager, List.lookup, hb]

theorem wagerInv_default : WagerInv defaultWager := by
  constructor <;> simp [defaultWager]

theorem inv_init : Inv initState := by
  intro id
  have : getWager initState id = defaultWager := by
    simp [getWager, initState, List.lookup]
  rw [this]
  exact wagerInv_default

theorem inv_setWager {s : JudgeState} {id : Nat} {w : Wager}
    (hs : Inv s) (hw : WagerInv w) : Inv (setWager s id w) := by
  intro j
  by_cases hj : j = id
  · subst hj
    rw [getWager_setWager_self]
    exact hw
  · rw [getWager_setWager_ne s id j w hj]
    exact hs j

/-- Inversion of a successful afterVote: either one of the counts reached
m and the wager was finalized with the corresponding party (votesForA is
checked first), or neither reached m and only the vote was recorded. -/
theorem afterVote_ok {s s' : JudgeState} {r : ArbitrationReceipt}
    {signer : Address} {w2 : Wager} {evs : List Event}
    (hres : w2.resolved = false)
    (h : afterVote s r signer w2 = .ok (s', evs)) :
    (w2.profile.m ≤ w2.votesForA ∧ w2.stakeA + w2.stakeB < U256 ∧
      s' = setWager (setWager s r.wagerId w2) r.wagerId
        (finalWager w2 w2.partyA r.confidenceBps) ∧
      evs = [Event.ReceiptAccepted r.wagerId signer r.winner r.confidenceBps r.traceURI,
        Event.Resolved r.wagerId w2.partyA r.confidenceBps,
        Event.TokenTransfer w2.token w2.partyA (w2.stakeA + w2.stakeB)
          (finalWager w2 w2.partyA r.confidenceBps),
        Event.Payout r.wagerId w2.partyA (w2.stakeA + w2.stakeB)]) ∨
    (¬ w2.profile.m ≤ w2.votesForA ∧ w2.profile.m ≤ w2.votesForB ∧
      w2.stakeA + w2.stakeB < U256 ∧
      s' = setWager (setWager s r.wagerId w2) r.wagerId
        (finalWager w2 w2.partyB r.confidenceBps) ∧
      evs = [Event.ReceiptAccepted r.wagerId signer r.winner r.confidenceBps r.traceURI,
        Event.Resolved r.wagerId w2.partyB r.confidenceBps,
        Event.TokenTransfer w2.token w2.partyB (w2.stakeA + w2.stakeB)
          (finalWager w2 w2.partyB r.confidenceBps),
        Event.Payout r.wagerId w2.partyB (w2.stakeA + w2.stakeB)]) ∨
    (¬ w2.profile.m ≤ w2.votesForA ∧ ¬ w2.profile.m ≤ w2.votesForB ∧
      s' = setWager s r.wagerId w2 ∧
      evs = [Event.ReceiptAccepted r.wagerId signer r.winner r.confidenceBps r.traceURI]) := by
  simp only [afterVote, finalizeWager, getWager_setWager_self, hres,
    Bool.false_eq_true, if_false] at h
  by_cases hA : w2.profile.m ≤ w2.votesForA
  · rw [if_pos hA] at h
    by_cases hpot : w2.stakeA + w2.stakeB < U256
    · rw [if_pos hpot] at h
      simp only [Except.ok.injEq, Prod.mk.injEq] at h
      refine Or.inl ⟨hA, hpot, h.1.symm, ?_⟩
      rw [← h.2]
      simp only [finalWager]
    · rw [if_neg hpot] at h
      simp at h
  · rw [if_neg hA] at h
    by_cases hB : w2.profile.m ≤ w2.votesForB
    · rw [if_pos hB] at h
      by_cases hpot : w2.stakeA + w2.stakeB < U256
      · rw [if_pos hpot] at h
        simp only [Except.ok.injEq, Prod.mk.injEq] at h
        refine Or.inr (Or.inl ⟨hA, hB, hpot, h.1.symm, ?_⟩)
        rw [← h.2]
        simp only [finalWager]
      · rw [if_neg hpot] at h
        simp at h
    · rw [if_neg hB] at h
      simp only [Except.ok.injEq, Prod.mk.injEq] at h
      exact Or.inr (Or.inr ⟨hA, hB, h.1.symm, h.2.symm⟩)

/-- Inversion of a successful submitReceipt: all checks passed and the call
reduced to afterVote on the vote-updated record. -/
theorem submitReceipt_ok_inv {s s' : JudgeState} {r : ArbitrationReceipt}
    {rec : Option Address} {evs : List Event}
    (h : submitReceipt s r rec = .ok (s', evs)) :
    ∃ signer, rec = some signer ∧
      (getWager s r.wagerId).partyA ≠ 0 ∧
      (getWager s r.wagerId).fundedA = true ∧
      (getWager s r.wagerId).fundedB = true ∧
      (getWager s r.wagerId).resolved = false ∧
      signer ∈ (getWager s r.wagerId).profile.arbitrators ∧
      signer ∉ (getWager s r.wagerId).arbitratorHasVoted ∧
      (getWager s r.wagerId).profile.confidenceThresholdBps ≤ r.confidenceBps ∧
      (r.winner = (getWager s r.wagerId).partyA ∨
        r.winner = (getWager s r.wagerId).partyB) ∧
      afterVote s r signer (voteWager (getWager s r.wagerId) signer r) = .ok (s', evs) := by
  unfold submitReceipt at h
  set w := getWager s r.wagerId with hw
  by_cases h0 : w.partyA = 0
  · rw [if_pos h0] at h; simp at h
  rw [if_neg h0] at h
  by_cases hf : w.fundedA = false ∨ w.fundedB = false
  · rw [if_pos hf] at h; simp at h
  rw [if_neg hf] at h
  push_neg at hf
  obtain ⟨hfA, hfB⟩ := hf
  rw [Bool.ne_false_iff] at hfA hfB
  by_cases hres : w.resolved = true
  · rw [if_pos hres] at h; simp at h
  rw [if_neg hres] at h
  rw [Bool.not_eq_true] at hres
  cases rec with
  | none => simp at h
  | some signer =>
    dsimp only at h
    refine ⟨signer, rfl, h0, hfA, hfB, hres, ?_⟩
    by_cases harb : signer ∈ w.profile.arbitrators
    case neg => rw [if_pos harb] at h; simp at h
    rw [if_neg (by simpa using harb)] at h
    by_cases hvoted : signer ∈ w.arbitratorHasVoted
    · rw [if_pos hvoted] at h; simp at h
    rw [if_neg hvoted] at h
    by_cases hconf : r.confidenceBps < w.profile.confidenceThresholdBps
    · rw [if_pos hconf] at h; simp at h
    rw [if_neg hconf] at h
    push_neg at hconf
    by_cases hwin : r.winner ≠ w.partyA ∧ r.winner ≠ w.partyB
    · rw [if_pos hwin] at h; simp at h
    rw [if_neg hwin] at h
    have hwin' : r.winner = w.partyA ∨ r.winner = w.partyB := by
      by_cases h1 : r.winner = w.partyA
      · exact Or.inl h1
      · exact Or.inr (by
          by_contra h2
          exact hwin ⟨h1, h2⟩)
    refine ⟨harb, hvoted, hconf, hwin', ?_⟩
    by_cases hwA : r.winner = w.partyA
    · rw [if_pos hwA] at h
      by_cases hov : w.votesForA + 1 < U256
      · rw [if_pos hov] at h
        rw [voteWager, if_pos hwA]
        exact h
      · rw [if_neg hov] at h; simp at h
    · rw [if_neg hwA] at h
      by_cases hov : w.votesForB + 1 < U256
      · rw [if_pos hov] at h
        rw [voteWager, if_neg hwA]
        exact h
      · rw [if_neg hov] at h; simp at h

theorem voteWager_partyA (w : Wager) (signer : Address) (r : ArbitrationReceipt) :
    (voteWager w signer r).partyA = w.partyA := by
  unfold voteWager; split <;> rfl

theorem voteWager_partyB (w : Wager) (signer : Address) (r : ArbitrationReceipt) :
    (voteWager w signer r).partyB = w.partyB := by
  unfold voteWager; split <;> rfl

theorem voteWager_token (w : Wager) (signer : Address) (r : ArbitrationReceipt) :
    (voteWager w signer r).token = w.token := by
  unfold voteWager; split <;> rfl

theorem voteWager_profile (w : Wager) (signer : Address) (r : ArbitrationReceipt) :
    (voteWager w signer r).profile = w.profile := by
  unfold voteWager; split <;> rfl

theorem voteWager_resolved (w : Wager) (signer : Address) (r : ArbitrationReceipt) :
    (voteWager w signer r).resolved = w.resolved := by
  unfold voteWager; split <;> rfl

theorem voteWager_fundedA (w : Wager) (signer : Address) (r : ArbitrationReceipt) :
    (voteWager w signer r).fundedA = w.fundedA := by
  unfold voteWager; split <;> rfl

theorem voteWager_fundedB (w : Wager) (signer : Address) (r : ArbitrationReceipt) :
    (voteWager w signer r).fundedB = w.fundedB := by
  unfold voteWager; split <;> rfl

theorem voteWager_stakeA (w : Wager) (signer : Address) (r : ArbitrationReceipt) :
    (voteWager w signer r).stakeA = w.stakeA := by
  unfold voteWager; split <;> rfl

theorem voteWager_stakeB (w : Wager) (signer : Address) (r : ArbitrationReceipt) :
    (voteWager w signer r).stakeB = w.stakeB := by
  unfold voteWager; split <;> rfl

theorem voteWager_stakeARequired (w : Wager) (signer : Address) (r : ArbitrationReceipt) :
    (voteWager w signer r).stakeARequired = w.stakeARequired := by
  unfold voteWager; split <;> rfl

theorem voteWager_stakeBRequired (w : Wager) (signer : Address) (r : ArbitrationReceipt) :
    (voteWager w signer r).stakeBRequired = w.stakeBRequired := by
  unfold voteWager; split <;> rfl

theorem voteWager_voted (w : Wager) (signer : Address) (r : ArbitrationReceipt) :
    (voteWager w signer r).arbitratorHasVoted = signer :: w.arbitratorHasVoted := by
  unfold voteWager; split <;> rfl

theorem voteWager_votes_sum (w : Wager) (signer : Address) (r : ArbitrationReceipt) :
    (voteWager w signer r).votesForA + (voteWager w signer r).votesForB =
      w.votesForA + w.votesForB + 1 := by
  unfold voteWager; split <;> (dsimp; omega)

/-- Writing a slot twice only exposes the second write. -/
theorem inv_setWager_shadow {s : JudgeState} {id : Nat} {w w' : Wager}
    (hs : Inv s) (hw' : WagerInv w') : Inv (setWager (setWager s id w) id w') := by
  intro j
  by_cases hj : j = id
  · subst hj
    rw [getWager_setWager_self]
    exact hw'
  · rw [getWager_setWager_ne _ _ _ _ hj, getWager_setWager_ne _ _ _ _ hj]
    exact hs j

/-- The vote bookkeeping preserves the per-wager invariant when neither
count has yet reached m. -/
theorem wagerInv_voteWager {w : Wager} {signer : Address} {r : ArbitrationReceipt}
    (hw : WagerInv w) (h0 : w.partyA ≠ 0) (hres : w.resolved = false)
    (harb : signer ∈ w.profile.arbitrators) (hvoted : signer ∉ w.arbitratorHasVoted)
    (hA : (voteWager w signer r).votesForA < w.profile.m)
    (hB : (voteWager w signer r).votesForB < w.profile.m) :
    WagerInv (voteWager w signer r) := by
  constructor
  · intro hq
    rw [voteWager_partyA] at hq
    exact absurd hq h0
  · intro _
    rw [voteWager_profile]
    exact hw.m_pos h0
  · intro _
    rw [voteWager_profile]
    exact hw.m_lt256 h0
  · rw [voteWager_profile]
    exact hw.n_mod
  · rw [voteWager_voted]
    exact List.nodup_cons.mpr ⟨hvoted, hw.voted_nodup⟩
  · rw [voteWager_voted, voteWager_profile]
    intro a ha
    rcases List.mem_cons.mp ha with h1 | h1
    · exact h1 ▸ harb
    · exact hw.voted_mem a h1
  · rw [voteWager_voted, voteWager_votes_sum, List.length_cons, hw.votes_sum]
  · intro _ _
    rw [voteWager_profile]
    exact ⟨hA, hB⟩
  · intro _
    rw [voteWager_stakeA, voteWager_stakeB, voteWager_stakeARequired,
      voteWager_stakeBRequired, voteWager_fundedA, voteWager_fundedB]
    exact hw.unresolved_stakes hres
  · intro hrt
    rw [voteWager_resolved, hres] at hrt
    exact Bool.noConfusion hrt
  · intro hrt
    rw [voteWager_resolved, hres] at hrt
    exact Bool.noConfusion hrt
  · intro hrt
    rw [voteWager_resolved, hres] at hrt
    exact Bool.noConfusion hrt

/-- Finalizing a vote-updated record preserves the per-wager invariant when
one of the counts reached m. -/
theorem wagerInv_finalWager {w : Wager} {signer : Address} {r : ArbitrationReceipt}
    {winner : Address}
    (hw : WagerInv w) (h0 : w.partyA ≠ 0) (_hres : w.resolved = false)
    (hfA : w.fundedA = true) (hfB : w.fundedB = true)
    (harb : signer ∈ w.profile.arbitrators) (hvoted : signer ∉ w.arbitratorHasVoted)
    (hconf : w.profile.confidenceThresholdBps ≤ r.confidenceBps)
    (hconf96 : r.confidenceBps < U96)
    (hm : w.profile.m ≤ (voteWager w signer r).votesForA ∨
      w.profile.m ≤ (voteWager w signer r).votesForB) :
    WagerInv (finalWager (voteWager w signer r) winner r.confidenceBps) := by
  constructor
  · intro hq
    rw [show (finalWager (voteWager w signer r) winner r.confidenceBps).partyA =
      (voteWager w signer r).partyA from rfl, voteWager_partyA] at hq
    exact absurd hq h0
  · intro _
    rw [show (finalWager (voteWager w signer r) winner r.confidenceBps).profile =
      (voteWager w signer r).profile from rfl, voteWager_profile]
    exact hw.m_pos h0
  · intro _
    rw [show (finalWager (voteWager w signer r) winner r.confidenceBps).profile =
      (voteWager w signer r).profile from rfl, voteWager_profile]
    exact hw.m_lt256 h0
  · rw [show (finalWager (voteWager w signer r) winner r.confidenceBps).profile =
      (voteWager w signer r).profile from rfl, voteWager_profile]
    exact hw.n_mod
  · rw [show (finalWager (voteWager w signer r) winner
      r.confidenceBps).arbitratorHasVoted =
      (voteWager w signer r).arbitratorHasVoted from rfl, voteWager_voted]
    exact List.nodup_cons.mpr ⟨hvoted, hw.voted_nodup⟩
  · rw [show (finalWager (voteWager w signer r) winner
      r.confidenceBps).arbitratorHasVoted =
      (voteWager w signer r).arbitratorHasVoted from rfl, voteWager_voted,
      show (finalWager (voteWager w signer r) winner r.confidenceBps).profile =
      (voteWager w signer r).profile from rfl, voteWager_profile]
    intro a ha
    rcases List.mem_cons.mp ha with h1 | h1
    · exact h1 ▸ harb
    · exact hw.voted_mem a h1
  · rw [show (finalWager (voteWager w signer r) winner
      r.confidenceBps).arbitratorHasVoted =
      (voteWager w signer r).arbitratorHasVoted from rfl, voteWager_voted,
      show (finalWager (voteWager w signer r) winner r.confidenceBps).votesForA =
      (voteWager w signer r).votesForA from rfl,
      show (finalWager (voteWager w signer r) winner r.confidenceBps).votesForB =
      (voteWager w signer r).votesForB from rfl,
      voteWager_votes_sum, List.length_cons, hw.votes_sum]
  · intro _ hrf
    rw [show (finalWager (voteWager w signer r) winner r.confidenceBps).resolved =
      true from rfl] at hrf
    exact Bool.noConfusion hrf
  · intro hrf
    rw [show (finalWager (voteWager w signer r) winner r.confidenceBps).resolved =
      true from rfl] at hrf
    exact Bool.noConfusion hrf
  · intro _
    rw [show (finalWager (voteWager w signer r) winner r.confidenceBps).votesForA =
      (voteWager w signer r).votesForA from rfl,
      show (finalWager (voteWager w signer r) winner r.confidenceBps).votesForB =
      (voteWager w signer r).votesForB from rfl,
      show (finalWager (voteWager w signer r) winner r.confidenceBps).profile =
      (voteWager w signer r).profile from rfl, voteWager_profile]
    exact hm
  · intro _
    rw [show (finalWager (voteWager w signer r) winner r.confidenceBps).fundedA =
      (voteWager w signer r).fundedA from rfl, voteWager_fundedA,
      show (finalWager (voteWager w signer r) winner r.confidenceBps).fundedB =
      (voteWager w signer r).fundedB from rfl, voteWager_fundedB,
      show (finalWager (voteWager w signer r) winner r.confidenceBps).partyA =
      (voteWager w signer r).partyA from rfl, voteWager_partyA]
    exact ⟨hfA, hfB, h0⟩
  · intro _
    rw [show (finalWager (voteWager w signer r) winner
      r.confidenceBps).winningConfidenceBps = r.confidenceBps from rfl,
      show (finalWager (voteWager w signer r) winner r.confidenceBps).profile =
      (voteWager w signer r).profile from rfl, voteWager_profile]
    exact ⟨hconf, hconf96⟩

/-- A successful submitReceipt preserves the contract invariant. -/
theorem submitReceipt_inv {s s' : JudgeState} {r : ArbitrationReceipt}
    {rec : Option Address} {evs : List Event}
    (hs : Inv s) (hconf96 : r.confidenceBps < U96)
    (h : submitReceipt s r rec = .ok (s', evs)) : Inv s' := by
  obtain ⟨signer, hrec, h0, hfA, hfB, hres, harb, hvoted, hconf, hwin, hAfter⟩ :=
    submitReceipt_ok_inv h
  have hres2 : (voteWager (getWager s r.wagerId) signer r).resolved = false := by
    rw [voteWager_resolved]; exact hres
  rcases afterVote_ok hres2 hAfter with h1 | h2 | h3
  · obtain ⟨hA, hpot, hs', hevs⟩ := h1
    rw [voteWager_profile] at hA
    rw [hs']
    exact inv_setWager_shadow hs
      (wagerInv_finalWager (hs r.wagerId) h0 hres hfA hfB harb hvoted hconf hconf96
        (Or.inl hA))
  · obtain ⟨hA, hB, hpot, hs', hevs⟩ := h2
    rw [voteWager_profile] at hB
    rw [hs']
    exact inv_setWager_shadow hs
      (wagerInv_finalWager (hs r.wagerId) h0 hres hfA hfB harb hvoted hconf hconf96
        (Or.inr hB))
  · obtain ⟨hA, hB, hs', hevs⟩ := h3
    rw [voteWager_profile] at hA hB
    rw [hs']
    exact inv_setWager hs
      (wagerInv_voteWager (hs r.wagerId) h0 hres harb hvoted
        (Nat.lt_of_not_le hA) (Nat.lt_of_not_le hB))

/-- A successful createWager preserves the contract invariant. -/
theorem createWager_inv {s s' : JudgeState} {sender partyB token : Address}
    {sA sB : Nat} {claim sources : String} {cth m : Nat} {arbs : List Address}
    {id : Nat} {evs : List Event}
    (hs : Inv s) (hsender : sender ≠ 0) (hm256 : m < 256)
    (h : createWager s sender partyB token sA sB claim sources cth m arbs =
      .ok (s', id, evs)) : Inv s' := by
  unfold createWager at h
  by_cases h1 : partyB = 0 ∨ token = 0
  · rw [if_pos h1] at h; simp at h
  rw [if_neg h1] at h
  by_cases h2 : sA = 0 ∨ sB = 0
  · rw [if_pos h2] at h; simp at h
  rw [if_neg h2] at h
  by_cases h3 : cth = 0 ∨ cth > 10000
  · rw [if_pos h3] at h; simp at h
  rw [if_neg h3] at h
  by_cases h4 : arbs.length = 0
  · rw [if_pos h4] at h; simp at h
  rw [if_neg h4] at h
  by_cases h5 : m = 0 ∨ m > arbs.length
  · rw [if_pos h5] at h; simp at h
  rw [if_neg h5] at h
  push_neg at h5
  by_cases h6 : s.nextWagerId + 1 < U256
  · rw [if_pos h6] at h
    simp only [Except.ok.injEq, Prod.mk.injEq] at h
    rw [← h.1]
    refine inv_setWager (s := { s with nextWagerId := s.nextWagerId + 1 })
      (fun j => hs j) ?_
    have hmpos : 0 < m := Nat.pos_of_ne_zero h5.1
    constructor
    · intro hq
      exact absurd hq hsender
    · intro _
      exact hmpos
    · intro _
      exact hm256
    · rfl
    · exact List.nodup_nil
    · intro a ha
      exact absurd ha (List.not_mem_nil a)
    · rfl
    · intro _ _
      exact ⟨hmpos, hmpos⟩
    · intro _
      exact ⟨rfl, rfl⟩
    · intro hrt
      exact Bool.noConfusion hrt
    · intro hrt
      exact Bool.noConfusion hrt
    · intro hrt
      exact Bool.noConfusion hrt
  · rw [if_neg h6] at h
    simp at h

/-- A successful fundEscrow preserves the contract invariant. -/
theorem fundEscrow_inv {s s' : JudgeState} {sender : Address} {id : Nat}
    {side : Side} {evs : List Event}
    (hs : Inv s) (h : fundEscrow s sender id side = .ok (s', evs)) : Inv s' := by
  unfold fundEscrow at h
  have hwv := hs id
  by_cases h0 : (getWager s id).partyA = 0
  · rw [if_pos h0] at h; simp at h
  rw [if_neg h0] at h
  by_cases hres : (getWager s id).resolved = true
  · rw [if_pos hres] at h; simp at h
  rw [if_neg hres] at h
  rw [Bool.not_eq_true] at hres
  cases side with
  | A =>
    dsimp only at h
    by_cases hp : sender ≠ (getWager s id).partyA
    · rw [if_pos hp] at h; simp at h
    rw [if_neg hp] at h
    by_cases hfd : (getWager s id).fundedA = true
    · rw [if_pos hfd] at h; simp at h
    rw [if_neg hfd] at h
    rw [Bool.not_eq_true] at hfd
    by_cases hov : (getWager s id).stakeA + (getWager s id).stakeARequired < U256
    · rw [if_pos hov] at h
      simp only [Except.ok.injEq, Prod.mk.injEq] at h
      rw [← h.1]
      refine inv_setWager hs ?_
      have hst := hwv.unresolved_stakes hres
      have hstA : (getWager s id).stakeA = 0 := by
        rw [hst.1, hfd]
        rfl
      constructor
      · intro hq
        exact absurd hq h0
      · intro _
        exact hwv.m_pos h0
      · intro _
        exact hwv.m_lt256 h0
      · exact hwv.n_mod
      · exact hwv.voted_nodup
      · exact hwv.voted_mem
      · exact hwv.votes_sum
      · intro _ _
        exact hwv.unresolved_votes h0 hres
      · intro _
        refine ⟨?_, hst.2⟩
        show (getWager s id).stakeA + (getWager s id).stakeARequired =
          if true = true then (getWager s id).stakeARequired else 0
        rw [hstA]
        simp
      · intro hrt
        have hrt2 : (getWager s id).resolved = true := hrt
        rw [hres] at hrt2
        exact Bool.noConfusion hrt2
      · intro hrt
        have hrt2 : (getWager s id).resolved = true := hrt
        rw [hres] at hrt2
        exact Bool.noConfusion hrt2
      · intro hrt
        have hrt2 : (getWager s id).resolved = true := hrt
        rw [hres] at hrt2
        exact Bool.noConfusion hrt2
    · rw [if_neg hov] at h
      simp at h
  | B =>
    dsimp only at h
    by_cases hp : sender ≠ (getWager s id).partyB
    · rw [if_pos hp] at h; simp at h
    rw [if_neg hp] at h
    by_cases hfd : (getWager s id).fundedB = true
    · rw [if_pos hfd] at h; simp at h
    rw [if_neg hfd] at h
    rw [Bool.not_eq_true] at hfd
    by_cases hov : (getWager s id).stakeB + (getWager s id).stakeBRequired < U256
    · rw [if_pos hov] at h
      simp only [Except.ok.injEq, Prod.mk.injEq] at h
      rw [← h.1]
      refine inv_setWager hs ?_
      have hst := hwv.unresolved_stakes hres
      have hstB : (getWager s id).stakeB = 0 := by
        rw [hst.2, hfd]
        rfl
      constructor
      · intro hq
        exact absurd hq h0
      · intro _
        exact hwv.m_pos h0
      · intro _
        exact hwv.m_lt256 h0
      · exact hwv.n_mod
      · exact hwv.voted_nodup
      · exact hwv.voted_mem
      · exact hwv.votes_sum
      · intro _ _
        exact hwv.unresolved_votes h0 hres
      · intro _
        refine ⟨hst.1, ?_⟩
        show (getWager s id).stakeB + (getWager s id).stakeBRequired =
          if true = true then (getWager s id).stakeBRequired else 0
        rw [hstB]
        simp
      · intro hrt
        have hrt2 : (getWager s id).resolved = true := hrt
        rw [hres] at hrt2
        exact Bool.noConfusion hrt2
      · intro hrt
        have hrt2 : (getWager s id).resolved = true := hrt
        rw [hres] at hrt2
        exact Bool.noConfusion hrt2
      · intro hrt
        have hrt2 : (getWager s id).resolved = true := hrt
        rw [hres] at hrt2
        exact Bool.noConfusion hrt2
    · rw [if_neg hov] at h
      simp at h

/-- A successful attachEvidence preserves the contract invariant. -/
theorem attachEvidence_inv {s s' : JudgeState} {sender : Address} {id root : Nat}
    {uri : String} {evs : List Event}
    (hs : Inv s) (hsender : sender ≠ 0)
    (h : attachEvidence s sender id root uri = .ok (s', evs)) : Inv s' := by
  unfold attachEvidence at h
  have hwv := hs id
  by_cases hp : sender ≠ (getWager s id).partyA ∧ sender ≠ (getWager s id).partyB
  · rw [if_pos hp] at h; simp at h
  rw [if_neg hp] at h
  simp only [Except.ok.injEq, Prod.mk.injEq] at h
  rw [← h.1]
  have hparty : sender = (getWager s id).partyA ∨ sender = (getWager s id).partyB := by
    rcases not_and_or.mp hp with h1 | h1
    · exact Or.inl (not_not.mp h1)
    · exact Or.inr (not_not.mp h1)
  have h0 : (getWager s id).partyA ≠ 0 := by
    intro h0
    have hdef := hwv.ghost h0
    rcases hparty with h1 | h1
    · rw [h1] at hsender
      exact hsender h0
    · rw [h1] at hsender
      apply hsender
      rw [hdef]
      rfl
  refine inv_setWager hs ?_
  constructor
  · intro hq
    exact absurd hq h0
  · intro _
    exact hwv.m_pos h0
  · intro _
    exact hwv.m_lt256 h0
  · exact hwv.n_mod
  · exact hwv.voted_nodup
  · exact hwv.voted_mem
  · exact hwv.votes_sum
  · intro _ hr
    exact hwv.unresolved_votes h0 hr
  · intro hr
    exact hwv.unresolved_stakes hr
  · intro hr
    exact hwv.resolved_votes hr
  · intro hr
    exact hwv.resolved_funded hr
  · intro hr
    exact hwv.resolved_conf hr

/-- Every transition preserves the contract invariant. -/
theorem step_inv {s s' : JudgeState} (hs : Inv s) (hstep : Step s s') : Inv s' := by
  cases hstep with
  | create hsender hm hcth hsA hsB heq => exact createWager_inv hs hsender hm heq
  | fund hsender heq => exact fundEscrow_inv hs heq
  | evidence hsender hroot heq => exact attachEvidence_inv hs hsender heq
  | receipt hconf heq => exact submitReceipt_inv hs hconf heq

/-- The contract invariant holds in every reachable state. -/
theorem reachable_inv {s : JudgeState} (h : Reachable s) : Inv s := by
  induction h with
  | init => exact inv_init
  | step _ hstep ih => exact step_inv ih hstep

theorem create_s1_eq :
    createWager initState 1 2 3 100 100 "claim" "sources" 8000 2 [10, 11, 12] =
      .ok (s1, 1,
        okEventsC (createWager initState 1 2 3 100 100 "claim" "sources" 8000 2 [10, 11, 12])) := rfl

theorem fund_s2_eq :
    fundEscrow s1 1 1 Side.A = .ok (s2, okEvents (fundEscrow s1 1 1 Side.A)) := rfl

theorem fund_s3_eq :
    fundEscrow s2 2 1 Side.B = .ok (s3, okEvents (fundEscrow s2 2 1 Side.B)) := rfl

theorem receipt_s4_eq :
    submitReceipt s3 rX (some 10) = .ok (s4, okEvents (submitReceipt s3 rX (some 10))) := rfl

theorem receipt_s5_eq :
    submitReceipt s4 rY (some 11) = .ok (s5, okEvents (submitReceipt s4 rY (some 11))) := rfl

theorem reachable_s1 : Reachable s1 :=
  Reachable.step Reachable.init
    (Step.create (by decide) (by decide) (by decide)
      (by norm_num [U256]) (by norm_num [U256]) create_s1_eq)

theorem reachable_s2 : Reachable s2 :=
  Reachable.step reachable_s1 (Step.fund (by decide) fund_s2_eq)

theorem reachable_s3 : Reachable s3 :=
  Reachable.step reachable_s2 (Step.fund (by decide) fund_s3_eq)

theorem reachable_s4 : Reachable s4 :=
  Reachable.step reachable_s3 (Step.receipt (by norm_num [rX, U96]) receipt_s4_eq)

theorem reachable_s5 : Reachable s5 :=
  Reachable.step reachable_s4 (Step.receipt (by norm_num [rY, U96]) receipt_s5_eq)

theorem create_h1_eq :
    createWager initState 1 2 3 100 100 "claim" "sources" 8000 1 [10] =
      .ok (h1, 1,
        okEventsC (createWager initState 1 2 3 100 100 "claim" "sources" 8000 1 [10])) := rfl

theorem fund_h2_eq :
    fundEscrow h1 1 1 Side.A = .ok (h2, okEvents (fundEscrow h1 1 1 Side.A)) := rfl

theorem fund_h3_eq :
    fundEscrow h2 2 1 Side.B = .ok (h3, okEvents (fundEscrow h2 2 1 Side.B)) := rfl

theorem receipt_h4_eq :
    submitReceipt h3 rHi (some 10) = .ok (h4, okEvents (submitReceipt h3 rHi (some 10))) := rfl

theorem reachable_h3 : Reachable h3 :=
  Reachable.step
    (Reachable.step
      (Reachable.step Reachable.init
        (Step.create (by decide) (by decide) (by decide)
          (by norm_num [U256]) (by norm_num [U256]) create_h1_eq))
      (Step.fund (by decide) fund_h2_eq))
    (Step.fund (by decide) fund_h3_eq)

theorem reachable_h4 : Reachable h4 :=
  Reachable.step reachable_h3 (Step.receipt (by norm_num [rHi, U96]) receipt_h4_eq)

theorem create_g1_eq :
    createWager initState 1 2 3 100 100 "claim" "sources" 8000 1 bigArbs =
      .ok (g1, 1,
        okEventsC (createWager initState 1 2 3 100 100 "claim" "sources" 8000 1 bigArbs)) := rfl

theorem fund_g2_eq :
    fundEscrow g1 1 1 Side.A = .ok (g2, okEvents (fundEscrow g1 1 1 Side.A)) := rfl

theorem fund_g3_eq :
    fundEscrow g2 2 1 Side.B = .ok (g3, okEvents (fundEscrow g2 2 1 Side.B)) := rfl

theorem receipt_g4_eq :
    submitReceipt g3 rBig (some 100) = .ok (g4, okEvents (submitReceipt g3 rBig (some 100))) := rfl

theorem reachable_g4 : Reachable g4 :=
  Reachable.step
    (Reachable.step
      (Reachable.step
        (Reachable.step Reachable.init
          (Step.create (by decide) (by decide) (by decide)
            (by norm_num [U256]) (by norm_num [U256]) create_g1_eq))
        (Step.fund (by decide) fund_g2_eq))
      (Step.fund (by decide) fund_g3_eq))
    (Step.receipt (by norm_num [rBig, U96]) receipt_g4_eq)

/-- On an unresolved record, afterVote can only revert with the overflow
panic of the pot addition. -/
theorem afterVote_error_overflow {s : JudgeState} {r : ArbitrationReceipt}
    {signer : Address} {w2 : Wager} {e : JudgeError}
    (hres : w2.resolved = false)
    (h : afterVote s r signer w2 = .error e) : e = .Overflow := by
  simp only [afterVote, finalizeWager, getWager_setWager_self, hres,
    Bool.false_eq_true, if_false] at h
  by_cases hA : w2.profile.m ≤ w2.votesForA
  · rw [if_pos hA] at h
    by_cases hpot : w2.stakeA + w2.stakeB < U256
    · rw [if_pos hpot] at h
      simp at h
    · rw [if_neg hpot] at h
      simp at h
      exact h.symm
  · rw [if_neg hA] at h
    by_cases hB : w2.profile.m ≤ w2.votesForB
    · rw [if_pos hB] at h
      by_cases hpot : w2.stakeA + w2.stakeB < U256
      · rw [if_pos hpot] at h
        simp at h
      · rw [if_neg hpot] at h
        simp at h
        exact h.symm
    · rw [if_neg hB] at h
      simp at h

/-- On an unresolved record whose pot addition does not overflow, afterVote
always succeeds and the resulting slot keeps the votes and voted set of the
written record. -/
theorem afterVote_total (s : JudgeState) (r : ArbitrationReceipt)
    (signer : Address) {w2 : Wager}
    (hres : w2.resolved = false)
    (hpot : w2.stakeA + w2.stakeB < U256) :
    ∃ s' evs, afterVote s r signer w2 = .ok (s', evs) ∧
      (getWager s' r.wagerId).votesForA = w2.votesForA ∧
      (getWager s' r.wagerId).votesForB = w2.votesForB := by
  simp only [afterVote, finalizeWager, getWager_setWager_self, hres,
    Bool.false_eq_true, if_false]
  by_cases hA : w2.profile.m ≤ w2.votesForA
  · rw [if_pos hA, if_pos hpot]
    refine ⟨_, _, rfl, ?_, ?_⟩ <;> rw [getWager_setWager_self]
  · rw [if_neg hA]
    by_cases hB : w2.profile.m ≤ w2.votesForB
    · rw [if_pos hB, if_pos hpot]
      refine ⟨_, _, rfl, ?_, ?_⟩ <;> rw [getWager_setWager_self]
    · rw [if_neg hB]
      refine ⟨_, _, rfl, ?_, ?_⟩ <;> rw [getWager_setWager_self]

/-- On a reachable state, a receipt that satisfies every precondition is
accepted and adds exactly one vote to the wager's tally. -/
theorem submitReceipt_accepts {s : JudgeState} {r : ArbitrationReceipt}
    {g : Address}
    (hinv : Inv s)
    (hex : (getWager s r.wagerId).partyA ≠ 0)
    (hfA : (getWager s r.wagerId).fundedA = true)
    (hfB : (getWager s r.wagerId).fundedB = true)
    (hres : (getWager s r.wagerId).resolved = false)
    (harb : g ∈ (getWager s r.wagerId).profile.arbitrators)
    (hvoted : g ∉ (getWager s r.wagerId).arbitratorHasVoted)
    (hok : (getWager s r.wagerId).profile.confidenceThresholdBps ≤ r.confidenceBps)
    (hwin : r.winner = (getWager s r.wagerId).partyA ∨
      r.winner = (getWager s r.wagerId).partyB)
    (hpot : (getWager s r.wagerId).stakeA + (getWager s r.wagerId).stakeB < U256) :
    ∃ s' evs, submitReceipt s r (some g) = .ok (s', evs) ∧
      (getWager s' r.wagerId).votesForA + (getWager s' r.wagerId).votesForB =
        (getWager s r.wagerId).votesForA + (getWager s r.wagerId).votesForB + 1 := by
  have hwv := hinv r.wagerId
  have hm256 := hwv.m_lt256 hex
  have hvlt := hwv.unresolved_votes hex hres
  have hres2 : (voteWager (getWager s r.wagerId) g r).resolved = false := by
    rw [voteWager_resolved]; exact hres
  have hpot2 : (voteWager (getWager s r.wagerId) g r).stakeA +
      (voteWager (getWager s r.wagerId) g r).stakeB < U256 := by
    rw [voteWager_stakeA, voteWager_stakeB]; exact hpot
  obtain ⟨s', evs, hAv, hvA, hvB⟩ :=
    afterVote_total s r g hres2 hpot2
  refine ⟨s', evs, ?_, ?_⟩
  · unfold submitReceipt
    rw [if_neg hex, if_neg (by simp [hfA, hfB]), if_neg (by simp [hres])]
    dsimp only
    rw [if_neg (by simpa using harb), if_neg (by simpa using hvoted),
      if_neg (by omega), if_neg (by tauto)]
    by_cases hwA : r.winner = (getWager s r.wagerId).partyA
    · rw [if_pos hwA]
      rw [if_pos (by
        have h256 : (256 : Nat) < U256 := by norm_num [U256]
        omega)]
      rw [← hAv]
      unfold voteWager
      rw [if_pos hwA]
    · rw [if_neg hwA]
      rw [if_pos (by
        have h256 : (256 : Nat) < U256 := by norm_num [U256]
        omega)]
      rw [← hAv]
      unfold voteWager
      rw [if_neg hwA]
  · rw [hvA, hvB, voteWager_votes_sum]

/-- C6: for every submitReceipt call on an existing, fully funded,
unresolved wager whose signature recovers to an address outside the wager's
arbitrator set, the call fails with NotArbitrator, regardless of whether
the signature is cryptographically valid for some other identity (the
recovered argument carries any successfully recovered identity). -/
theorem claimC6 (s : JudgeState) (r : ArbitrationReceipt) (g : Address)
    (hex : (getWager s r.wagerId).partyA ≠ 0)
    (hfA : (getWager s r.wagerId).fundedA = true)
    (hfB : (getWager s r.wagerId).fundedB = true)
    (hres : (getWager s r.wagerId).resolved = false)
    (hout : g ∉ (getWager s r.wagerId).profile.arbitrators) :
    submitReceipt s r (some g) = .error .NotArbitrator := by
  unfold submitReceipt
  rw [if_neg hex, if_neg (by simp [hfA, hfB]), if_neg (by simp [hres])]
  dsimp only
  rw [if_pos hout]

theorem claimC6_witness :
    submitReceipt s3 rX (some 99) = .error .NotArbitrator :=
  claimC6 s3 rX 99 (by decide) (by decide) (by decide) (by decide) (by decide)

/-- C9: attachEvidence succeeds exactly when the caller is partyA or partyB
and fails with NotParty otherwise; it has no funding or resolution
precondition (no such hypothesis appears), and a successful call rewrites
only evidenceRoot and evidenceURI of the addressed slot, last write wins,
leaving every other slot unchanged. -/
theorem claimC9 (s : JudgeState) (sender : Address) (id root : Nat) (uri : String) :
    ((sender = (getWager s id).partyA ∨ sender = (getWager s id).partyB) →
      attachEvidence s sender id root uri =
        .ok (setWager s id
          { getWager s id with evidenceRoot := root, evidenceURI := uri },
          [Event.EvidenceAttached id root uri]) ∧
      (∀ j, j ≠ id →
        getWager (setWager s id
          { getWager s id with evidenceRoot := root, evidenceURI := uri }) j =
          getWager s j)) ∧
    ((sender ≠ (getWager s id).partyA ∧ sender ≠ (getWager s id).partyB) →
      attachEvidence s sender id root uri = .error .NotParty) := by
  constructor
  · intro hp
    have hcond : ¬(sender ≠ (getWager s id).partyA ∧
        sender ≠ (getWager s id).partyB) := by
      rcases hp with h | h <;> simp [h]
    refine ⟨?_, ?_⟩
    · unfold attachEvidence
      rw [if_neg hcond]
    · intro j hj
      exact getWager_setWager_ne _ _ _ _ hj
  · intro hn
    unfold attachEvidence
    rw [if_pos hn]

theorem claimC9_witness :
    (attachEvidence s5 1 1 77 "u" =
      .ok (setWager s5 1
        { getWager s5 1 with evidenceRoot := 77, evidenceURI := "u" },
        [Event.EvidenceAttached 1 77 "u"])) ∧
    attachEvidence s5 9 1 77 "u" = .error .NotParty :=
  ⟨((claimC9 s5 1 1 77 "u").1 (Or.inl (by decide))).1,
   (claimC9 s5 9 1 77 "u").2 (by decide)⟩

/-- C10: attachEvidence performs no wager-existence check: for an id with
no entry in the wagers mapping, a call by any nonzero caller fails with
NotParty, whereas fundEscrow and submitReceipt on the same id fail with
InvalidParams; reverts carry no post state, so nothing is modified. -/
theorem claimC10 (s : JudgeState) (sender : Address) (id root : Nat)
    (uri : String) (side : Side) (r : ArbitrationReceipt)
    (recovered : Option Address)
    (habsent : List.lookup id s.wagers = none) (hsender : sender ≠ 0)
    (hrid : r.wagerId = id) :
    attachEvidence s sender id root uri = .error .NotParty ∧
    fundEscrow s sender id side = .error .InvalidParams ∧
    submitReceipt s r recovered = .error .InvalidParams := by
  have hw : getWager s id = defaultWager := by
    simp [getWager, habsent]
  refine ⟨?_, ?_, ?_⟩
  · unfold attachEvidence
    rw [if_pos (by
      rw [hw]
      exact ⟨by simpa [defaultWager] using hsender,
        by simpa [defaultWager] using hsender⟩)]
  · unfold fundEscrow
    rw [if_pos (by rw [hw]; rfl)]
  · unfold submitReceipt
    rw [if_pos (by rw [hrid, hw]; rfl)]

theorem claimC10_witness :
    attachEvidence s1 5 7 3 "u" = .error .NotParty ∧
    fundEscrow s1 5 7 Side.A = .error .InvalidParams ∧
    submitReceipt s1
      { wagerId := 7, winner := 1, confidenceBps := 9000,
        traceURI := "t", timestamp := 0 } (some 10) = .error .InvalidParams :=
  claimC10 s1 5 7 3 "u" Side.A
    { wagerId := 7, winner := 1, confidenceBps := 9000,
      traceURI := "t", timestamp := 0 } (some 10)
    (by decide) (by decide) rfl

/-- C7 counterexample: on the reachable resolved state s5 the side A flag
is funded and the caller is partyA, yet fundEscrow reverts with
AlreadyResolved, not AlreadyFunded, because the resolved check precedes
the funded check; so a funded side does not always fail with
AlreadyFunded once the wager is resolved. -/
theorem claimC7_counterexample :
    Reachable s5 ∧
    (getWager s5 1).partyA = 1 ∧
    (getWager s5 1).fundedA = true ∧
    fundEscrow s5 1 1 Side.A = .error .AlreadyResolved ∧
    JudgeError.AlreadyResolved ≠ JudgeError.AlreadyFunded :=
  ⟨reachable_s5, by decide, by decide, by decide, by decide⟩

/-- C7 amended: for an existing wager, a resolved wager makes any
fundEscrow call fail with AlreadyResolved; on an unresolved wager a caller
other than the side's named party always fails with NotParty, and the
side's named party refunding an already funded side always fails with
AlreadyFunded. -/
theorem claimC7 (s : JudgeState) (sender : Address) (id : Nat) (side : Side)
    (hex : (getWager s id).partyA ≠ 0) :
    ((getWager s id).resolved = true →
      fundEscrow s sender id side = .error .AlreadyResolved) ∧
    ((getWager s id).resolved = false →
      sender ≠ partyOf (getWager s id) side →
      fundEscrow s sender id side = .error .NotParty) ∧
    ((getWager s id).resolved = false →
      sender = partyOf (getWager s id) side →
      fundedOf (getWager s id) side = true →
      fundEscrow s sender id side = .error .AlreadyFunded) := by
  refine ⟨?_, ?_, ?_⟩
  · intro hres
    unfold fundEscrow
    rw [if_neg hex, if_pos hres]
  · intro hres hp
    unfold fundEscrow
    rw [if_neg hex, if_neg (by simp [hres])]
    cases side with
    | A =>
      dsimp only
      rw [if_pos (by simpa [partyOf] using hp)]
    | B =>
      dsimp only
      rw [if_pos (by simpa [partyOf] using hp)]
  · intro hres hp hfd
    unfold fundEscrow
    rw [if_neg hex, if_neg (by simp [hres])]
    cases side with
    | A =>
      dsimp only
      rw [if_neg (by simpa [partyOf] using hp), if_pos (by simpa [fundedOf] using hfd)]
    | B =>
      dsimp only
      rw [if_neg (by simpa [partyOf] using hp), if_pos (by simpa [fundedOf] using hfd)]

theorem claimC7_witness :
    fundEscrow s5 1 1 Side.A = .error .AlreadyResolved ∧
    fundEscrow s2 9 1 Side.B = .error .NotParty ∧
    fundEscrow s2 1 1 Side.A = .error .AlreadyFunded :=
  ⟨(claimC7 s5 1 1 Side.A (by decide)).1 (by decide),
   (claimC7 s2 9 1 Side.B (by decide)).2.1 (by decide) (by decide),
   (claimC7 s2 1 1 Side.A (by decide)).2.2 (by decide) (by decide) (by decide)⟩

/-- C5: a receipt whose confidence is below the wager's threshold is
rejected with ConfidenceTooLow; a revert carries no post state, so the
wager is unchanged and in particular the arbitrator is not marked as
having voted, and the same arbitrator can later submit a qualifying
receipt that is accepted and counted as exactly one vote. -/
theorem claimC5 (s : JudgeState) (r rq : ArbitrationReceipt) (g : Address)
    (hreach : Reachable s)
    (hex : (getWager s r.wagerId).partyA ≠ 0)
    (hfA : (getWager s r.wagerId).fundedA = true)
    (hfB : (getWager s r.wagerId).fundedB = true)
    (hres : (getWager s r.wagerId).resolved = false)
    (harb : g ∈ (getWager s r.wagerId).profile.arbitrators)
    (hvoted : g ∉ (getWager s r.wagerId).arbitratorHasVoted)
    (hlow : r.confidenceBps < (getWager s r.wagerId).profile.confidenceThresholdBps)
    (hsame : rq.wagerId = r.wagerId)
    (hok : (getWager s r.wagerId).profile.confidenceThresholdBps ≤ rq.confidenceBps)
    (hwin : rq.winner = (getWager s r.wagerId).partyA ∨
      rq.winner = (getWager s r.wagerId).partyB)
    (hpot : (getWager s r.wagerId).stakeA + (getWager s r.wagerId).stakeB < U256) :
    submitReceipt s r (some g) = .error .ConfidenceTooLow ∧
    ∃ s' evs, submitReceipt s rq (some g) = .ok (s', evs) ∧
      (getWager s' r.wagerId).votesForA + (getWager s' r.wagerId).votesForB =
        (getWager s r.wagerId).votesForA + (getWager s r.wagerId).votesForB + 1 := by
  constructor
  · unfold submitReceipt
    rw [if_neg hex, if_neg (by simp [hfA, hfB]), if_neg (by simp [hres])]
    dsimp only
    rw [if_neg (by simpa using harb), if_neg (by simpa using hvoted), if_pos hlow]
  · obtain ⟨s', evs, hok', hsum⟩ :=
      submitReceipt_accepts (r := rq) (g := g) (reachable_inv hreach)
        (by rw [hsame]; exact hex) (by rw [hsame]; exact hfA)
        (by rw [hsame]; exact hfB) (by rw [hsame]; exact hres)
        (by rw [hsame]; exact harb) (by rw [hsame]; exact hvoted)
        (by rw [hsame]; exact hok) (by rw [hsame]; exact hwin)
        (by rw [hsame]; exact hpot)
    rw [hsame] at hsum
    exact ⟨s', evs, hok', hsum⟩

theorem claimC5_witness :
    submitReceipt s3 rLow (some 10) = .error .ConfidenceTooLow ∧
    ∃ s' evs, submitReceipt s3 rX (some 10) = .ok (s', evs) ∧
      (getWager s' rLow.wagerId).votesForA + (getWager s' rLow.wagerId).votesForB =
        (getWager s3 rLow.wagerId).votesForA +
          (getWager s3 rLow.wagerId).votesForB + 1 :=
  claimC5 s3 rLow rX 10 reachable_s3 (by decide) (by decide) (by decide)
    (by decide) (by decide) (by decide) (by decide) (by decide) (by decide)
    (by decide) (by decide)

/-- C3: for every submitReceipt call and every error of the spec's listed
taxonomy, the call reverts with that error exactly when it is the first
violated precondition in the spec's listed order: wager existence
(InvalidParams), both sides funded (NotFunded), not resolved
(AlreadyResolved), recovered signer in the arbitrator set (NotArbitrator),
signer has not voted (DuplicateReceipt), confidence at least the threshold
(ConfidenceTooLow), winner is a party (UnknownWinner). -/
theorem claimC3 (s : JudgeState) (r : ArbitrationReceipt)
    (recovered : Option Address) (e : JudgeError)
    (hlisted : e = .InvalidParams ∨ e = .NotFunded ∨ e = .AlreadyResolved ∨
      e = .NotArbitrator ∨ e = .DuplicateReceipt ∨ e = .ConfidenceTooLow ∨
      e = .UnknownWinner) :
    (errOf (submitReceipt s r recovered) = some e ↔
      submitReceiptFirstViolation s r recovered = some e) := by
  have hov : JudgeError.Overflow ≠ e := by
    rcases hlisted with rfl | rfl | rfl | rfl | rfl | rfl | rfl <;> simp
  unfold submitReceipt submitReceiptFirstViolation
  by_cases h0 : (getWager s r.wagerId).partyA = 0
  · rw [if_pos h0, if_pos h0]
    exact Iff.rfl
  rw [if_neg h0, if_neg h0]
  by_cases hf : (getWager s r.wagerId).fundedA = false ∨
      (getWager s r.wagerId).fundedB = false
  · rw [if_pos hf, if_pos hf]
    exact Iff.rfl
  rw [if_neg hf, if_neg hf]
  by_cases hrt : (getWager s r.wagerId).resolved = true
  · rw [if_pos hrt, if_pos hrt]
    exact Iff.rfl
  rw [if_neg hrt, if_neg hrt]
  have hres : (getWager s r.wagerId).resolved = false := by
    rw [Bool.not_eq_true] at hrt
    exact hrt
  cases recovered with
  | none => exact Iff.rfl
  | some g =>
    dsimp only
    by_cases harb : g ∉ (getWager s r.wagerId).profile.arbitrators
    · rw [if_pos harb, if_pos harb]
      exact Iff.rfl
    rw [if_neg harb, if_neg harb]
    by_cases hvt : g ∈ (getWager s r.wagerId).arbitratorHasVoted
    · rw [if_pos hvt, if_pos hvt]
      exact Iff.rfl
    rw [if_neg hvt, if_neg hvt]
    by_cases hcl : r.confidenceBps < (getWager s r.wagerId).profile.confidenceThresholdBps
    · rw [if_pos hcl, if_pos hcl]
      exact Iff.rfl
    rw [if_neg hcl, if_neg hcl]
    by_cases hwn : r.winner ≠ (getWager s r.wagerId).partyA ∧
        r.winner ≠ (getWager s r.wagerId).partyB
    · rw [if_pos hwn, if_pos hwn]
      exact Iff.rfl
    rw [if_neg hwn, if_neg hwn]
    have hres2 : (voteWager (getWager s r.wagerId) g r).resolved = false := by
      rw [voteWager_resolved]
      exact hres
    have hcontra :
        errOf (afterVote s r g (voteWager (getWager s r.wagerId) g r)) = some e →
          False := by
      intro hl2
      cases hAv : afterVote s r g (voteWager (getWager s r.wagerId) g r) with
      | ok p =>
        rw [hAv] at hl2
        simp [errOf] at hl2
      | error e2 =>
        rw [hAv] at hl2
        simp only [errOf, Option.some.injEq] at hl2
        apply hov
        rw [← hl2]
        exact (afterVote_error_overflow hres2 hAv).symm
    constructor
    · intro hl
      exfalso
      by_cases hwA : r.winner = (getWager s r.wagerId).partyA
      · rw [if_pos hwA] at hl
        by_cases hof : (getWager s r.wagerId).votesForA + 1 < U256
        · rw [if_pos hof] at hl
          apply hcontra
          rw [voteWager, if_pos hwA]
          exact hl
        · rw [if_neg hof] at hl
          simp only [errOf, Option.some.injEq] at hl
          exact hov hl
      · rw [if_neg hwA] at hl
        by_cases hof : (getWager s r.wagerId).votesForB + 1 < U256
        · rw [if_pos hof] at hl
          apply hcontra
          rw [voteWager, if_neg hwA]
          exact hl
        · rw [if_neg hof] at hl
          simp only [errOf, Option.some.injEq] at hl
          exact hov hl
    · intro hr
      exact Option.noConfusion hr

theorem claimC3_witness :
    errOf (submitReceipt s1 rX (some 10)) = some .NotFunded :=
  (claimC3 s1 rX (some 10) .NotFunded
    (Or.inr (Or.inl rfl))).mpr (by decide)

theorem finalWager_resolved (w : Wager) (x : Address) (c : Nat) :
    (finalWager w x c).resolved = true := rfl

theorem finalWager_winner (w : Wager) (x : Address) (c : Nat) :
    (finalWager w x c).winner = x := rfl

theorem finalWager_conf (w : Wager) (x : Address) (c : Nat) :
    (finalWager w x c).winningConfidenceBps = c := rfl

theorem finalWager_votesForA (w : Wager) (x : Address) (c : Nat) :
    (finalWager w x c).votesForA = w.votesForA := rfl

theorem finalWager_votesForB (w : Wager) (x : Address) (c : Nat) :
    (finalWager w x c).votesForB = w.votesForB := rfl

theorem finalWager_profile (w : Wager) (x : Address) (c : Nat) :
    (finalWager w x c).profile = w.profile := rfl

theorem finalWager_stakeA (w : Wager) (x : Address) (c : Nat) :
    (finalWager w x c).stakeA = 0 := rfl

theorem finalWager_stakeB (w : Wager) (x : Address) (c : Nat) :
    (finalWager w x c).stakeB = 0 := rfl

theorem voteWager_votesForA_eq {w : Wager} {r : ArbitrationReceipt}
    (signer : Address) (h : r.winner = w.partyA) :
    (voteWager w signer r).votesForA = w.votesForA + 1 := by
  unfold voteWager
  rw [if_pos h]

theorem voteWager_votesForB_eq {w : Wager} {r : ArbitrationReceipt}
    (signer : Address) (h : r.winner = w.partyA) :
    (voteWager w signer r).votesForB = w.votesForB := by
  unfold voteWager
  rw [if_pos h]

theorem voteWager_votesForA_ne {w : Wager} {r : ArbitrationReceipt}
    (signer : Address) (h : r.winner ≠ w.partyA) :
    (voteWager w signer r).votesForA = w.votesForA := by
  unfold voteWager
  rw [if_neg h]

theorem voteWager_votesForB_ne {w : Wager} {r : ArbitrationReceipt}
    (signer : Address) (h : r.winner ≠ w.partyA) :
    (voteWager w signer r).votesForB = w.votesForB + 1 := by
  unfold voteWager
  rw [if_neg h]

/-- C1: in every reachable state an existing wager is resolved exactly when
one of its vote counts has reached m; a successful submitReceipt that
resolves the wager does so synchronously, recording the triggering
receipt's winner and its confidence, not an average or maximum; and once a
wager is resolved every further submitReceipt reverts with AlreadyResolved,
so finalization happens at most once. -/
theorem claimC1 (s : JudgeState) (hreach : Reachable s) :
    (∀ id, (getWager s id).partyA ≠ 0 →
      ((getWager s id).resolved = true ↔
        ((getWager s id).profile.m ≤ (getWager s id).votesForA ∨
          (getWager s id).profile.m ≤ (getWager s id).votesForB))) ∧
    (∀ r rec s' evs, submitReceipt s r rec = .ok (s', evs) →
      ((getWager s' r.wagerId).resolved = true ↔
        ((getWager s' r.wagerId).profile.m ≤ (getWager s' r.wagerId).votesForA ∨
          (getWager s' r.wagerId).profile.m ≤ (getWager s' r.wagerId).votesForB)) ∧
      ((getWager s' r.wagerId).resolved = true →
        (getWager s' r.wagerId).winner = r.winner ∧
        (getWager s' r.wagerId).winningConfidenceBps = r.confidenceBps)) ∧
    (∀ r rec, (getWager s r.wagerId).resolved = true →
      submitReceipt s r rec = .error .AlreadyResolved) := by
  have hinv := reachable_inv hreach
  refine ⟨?_, ?_, ?_⟩
  · intro id hex
    constructor
    · exact (hinv id).resolved_votes
    · intro hv
      by_contra hne
      rw [Bool.not_eq_true] at hne
      obtain ⟨hA, hB⟩ := (hinv id).unresolved_votes hex hne
      rcases hv with h | h <;> omega
  · intro r rec s' evs h
    obtain ⟨g, hrec, hex, hfA, hfB, hres, harb, hvoted, hconf, hwin, hAfter⟩ :=
      submitReceipt_ok_inv h
    have hres2 : (voteWager (getWager s r.wagerId) g r).resolved = false := by
      rw [voteWager_resolved]
      exact hres
    have hvlt := (hinv r.wagerId).unresolved_votes hex hres
    rcases afterVote_ok hres2 hAfter with h1 | h2 | h3
    · obtain ⟨hA, hpot, hs', hevs⟩ := h1
      rw [voteWager_profile] at hA
      subst hs'
      rw [getWager_setWager_self]
      have hwA : r.winner = (getWager s r.wagerId).partyA := by
        by_contra hne
        rw [voteWager_votesForA_ne g hne] at hA
        omega
      refine ⟨?_, ?_⟩
      · rw [finalWager_resolved, finalWager_profile, finalWager_votesForA,
          voteWager_profile]
        exact ⟨fun _ => Or.inl hA, fun _ => rfl⟩
      · intro _
        rw [finalWager_winner, finalWager_conf, voteWager_partyA]
        exact ⟨hwA.symm, rfl⟩
    · obtain ⟨hA, hB, hpot, hs', hevs⟩ := h2
      rw [voteWager_profile] at hA hB
      subst hs'
      rw [getWager_setWager_self]
      have hwB : r.winner ≠ (getWager s r.wagerId).partyA := by
        intro heq
        rw [voteWager_votesForB_eq g heq] at hB
        omega
      have hwB2 : r.winner = (getWager s r.wagerId).partyB := by
        rcases hwin with h' | h'
        · exact absurd h' hwB
        · exact h'
      refine ⟨?_, ?_⟩
      · rw [finalWager_resolved, finalWager_profile, finalWager_votesForB,
          voteWager_profile]
        exact ⟨fun _ => Or.inr hB, fun _ => rfl⟩
      · intro _
        rw [finalWager_winner, finalWager_conf, voteWager_partyB]
        exact ⟨hwB2.symm, rfl⟩
    · obtain ⟨hA, hB, hs', hevs⟩ := h3
      rw [voteWager_profile] at hA hB
      subst hs'
      rw [getWager_setWager_self]
      refine ⟨?_, ?_⟩
      · rw [voteWager_resolved, voteWager_profile, hres]
        constructor
        · intro hq
          exact Bool.noConfusion hq
        · intro hv
          rcases hv with h' | h'
          · exact absurd h' hA
          · exact absurd h' hB
      · intro hq
        rw [voteWager_resolved, hres] at hq
        exact Bool.noConfusion hq
  · intro r rec hresv
    have hfund := (hinv r.wagerId).resolved_funded hresv
    unfold submitReceipt
    rw [if_neg hfund.2.2, if_neg (by simp [hfund.1, hfund.2.1]), if_pos hresv]

theorem claimC1_witness :
    ((getWager s5 1).resolved = true ↔
      ((getWager s5 1).profile.m ≤ (getWager s5 1).votesForA ∨
        (getWager s5 1).profile.m ≤ (getWager s5 1).votesForB)) ∧
    submitReceipt s5 rX (some 12) = .error .AlreadyResolved :=
  ⟨(claimC1 s5 reachable_s5).1 1 (by decide),
   (claimC1 s5 reachable_s5).2.2 rX (some 12) (by decide)⟩

/-- C2: whenever a successful submitReceipt resolves a wager on a reachable
state, the external token transfer pays the winner exactly stakeA plus
stakeB as held before the call, both escrow balances are zero in the post
state of the same call, the storage snapshot carried by the transfer (what
a reentrant callee would observe) already has both balances zeroed and the
wager marked resolved, and the amount equals stakeARequired plus
stakeBRequired since each side funds exactly its requirement exactly
once. -/
theorem claimC2 (s : JudgeState) (r : ArbitrationReceipt) (rec : Option Address)
    (s' : JudgeState) (evs : List Event)
    (hreach : Reachable s)
    (h : submitReceipt s r rec = .ok (s', evs))
    (hres' : (getWager s' r.wagerId).resolved = true) :
    ∃ snap : Wager,
      Event.TokenTransfer (getWager s r.wagerId).token
        (getWager s' r.wagerId).winner
        ((getWager s r.wagerId).stakeA + (getWager s r.wagerId).stakeB) snap ∈ evs ∧
      snap.stakeA = 0 ∧ snap.stakeB = 0 ∧ snap.resolved = true ∧
      (getWager s' r.wagerId).stakeA = 0 ∧ (getWager s' r.wagerId).stakeB = 0 ∧
      (getWager s r.wagerId).stakeA + (getWager s r.wagerId).stakeB =
        (getWager s r.wagerId).stakeARequired +
          (getWager s r.wagerId).stakeBRequired := by
  have hinv := reachable_inv hreach
  obtain ⟨g, hrec, hex, hfA, hfB, hres, harb, hvoted, hconf, hwin, hAfter⟩ :=
    submitReceipt_ok_inv h
  have hres2 : (voteWager (getWager s r.wagerId) g r).resolved = false := by
    rw [voteWager_resolved]
    exact hres
  have hstakes := (hinv r.wagerId).unresolved_stakes hres
  have hreq : (getWager s r.wagerId).stakeA + (getWager s r.wagerId).stakeB =
      (getWager s r.wagerId).stakeARequired +
        (getWager s r.wagerId).stakeBRequired := by
    rw [hstakes.1, hstakes.2, hfA, hfB]
    simp
  have ht := voteWager_token (getWager s r.wagerId) g r
  have hsA := voteWager_stakeA (getWager s r.wagerId) g r
  have hsB := voteWager_stakeB (getWager s r.wagerId) g r
  rcases afterVote_ok hres2 hAfter with h1 | h2 | h3
  · obtain ⟨hA, hpot, hs', hevs⟩ := h1
    subst hs'
    rw [getWager_setWager_self]
    refine ⟨finalWager (voteWager (getWager s r.wagerId) g r)
      ((voteWager (getWager s r.wagerId) g r).partyA) r.confidenceBps,
      ?_, rfl, rfl, rfl, finalWager_stakeA _ _ _, finalWager_stakeB _ _ _, hreq⟩
    rw [hevs, finalWager_winner]
    simp [ht, hsA, hsB]
  · obtain ⟨hA, hB, hpot, hs', hevs⟩ := h2
    subst hs'
    rw [getWager_setWager_self]
    refine ⟨finalWager (voteWager (getWager s r.wagerId) g r)
      ((voteWager (getWager s r.wagerId) g r).partyB) r.confidenceBps,
      ?_, rfl, rfl, rfl, finalWager_stakeA _ _ _, finalWager_stakeB _ _ _, hreq⟩
    rw [hevs, finalWager_winner]
    simp [ht, hsA, hsB]
  · obtain ⟨hA, hB, hs', hevs⟩ := h3
    subst hs'
    rw [getWager_setWager_self, voteWager_resolved, hres] at hres'
    exact Bool.noConfusion hres'

theorem claimC2_witness :
    ∃ snap : Wager,
      Event.TokenTransfer (getWager s4 1).token (getWager s5 1).winner
        ((getWager s4 1).stakeA + (getWager s4 1).stakeB) snap ∈
          okEvents (submitReceipt s4 rY (some 11)) ∧
      snap.stakeA = 0 ∧ snap.stakeB = 0 ∧ snap.resolved = true ∧
      (getWager s5 1).stakeA = 0 ∧ (getWager s5 1).stakeB = 0 ∧
      (getWager s4 1).stakeA + (getWager s4 1).stakeB =
        (getWager s4 1).stakeARequired + (getWager s4 1).stakeBRequired :=
  claimC2 s4 rY (some 11) s5 (okEvents (submitReceipt s4 rY (some 11)))
    reachable_s4 receipt_s5_eq (by decide)

/-- C4 counterexample: createWager stores n as the uint8 cast of the
arbitrator array length, so a reachable wager with 256 arbitrators has
profile.n equal 0 while a single accepted receipt already makes
votesForA plus votesForB equal 1, exceeding the stored n; the claim that
the vote total is bounded by the stored panel size field n is false. -/
theorem claimC4_counterexample :
    Reachable g4 ∧
    (getWager g4 1).profile.arbitrators.length = 256 ∧
    (getWager g4 1).profile.n = 0 ∧
    (getWager g4 1).votesForA + (getWager g4 1).votesForB = 1 :=
  ⟨reachable_g4, by decide, by decide, by decide⟩

/-- C4 amended: in every reachable state the vote total of a wager is at
most the number of entries of its arbitrator array, the true panel size;
the stored profile.n is that length reduced mod 256 by the uint8 cast, so
the vote total is bounded by the stored n whenever the array has fewer
than 256 entries; and a submitReceipt on an existing, funded, unresolved
wager whose recovered signer has already voted always reverts with
DuplicateReceipt, so an identity is never counted twice. -/
theorem claimC4 (s : JudgeState) (hreach : Reachable s) :
    (∀ id, (getWager s id).votesForA + (getWager s id).votesForB ≤
        (getWager s id).profile.arbitrators.length ∧
      ((getWager s id).profile.arbitrators.length < 256 →
        (getWager s id).votesForA + (getWager s id).votesForB ≤
          (getWager s id).profile.n)) ∧
    (∀ r g, (getWager s r.wagerId).partyA ≠ 0 →
      (getWager s r.wagerId).fundedA = true →
      (getWager s r.wagerId).fundedB = true →
      (getWager s r.wagerId).resolved = false →
      g ∈ (getWager s r.wagerId).arbitratorHasVoted →
      submitReceipt s r (some g) = .error .DuplicateReceipt) := by
  have hinv := reachable_inv hreach
  constructor
  · intro id
    have hwv := hinv id
    have hsub : (getWager s id).arbitratorHasVoted.toFinset ⊆
        (getWager s id).profile.arbitrators.toFinset := by
      intro x hx
      exact List.mem_toFinset.mpr (hwv.voted_mem x (List.mem_toFinset.mp hx))
    have hcard : (getWager s id).arbitratorHasVoted.length ≤
        (getWager s id).profile.arbitrators.length := by
      calc (getWager s id).arbitratorHasVoted.length
          = (getWager s id).arbitratorHasVoted.toFinset.card :=
            (List.toFinset_card_of_nodup hwv.voted_nodup).symm
        _ ≤ (getWager s id).profile.arbitrators.toFinset.card :=
            Finset.card_le_card hsub
        _ ≤ (getWager s id).profile.arbitrators.length :=
            List.toFinset_card_le _
    have hbound : (getWager s id).votesForA + (getWager s id).votesForB ≤
        (getWager s id).profile.arbitrators.length := by
      rw [hwv.votes_sum]
      exact hcard
    refine ⟨hbound, ?_⟩
    intro hlt
    rw [hwv.n_mod, Nat.mod_eq_of_lt hlt]
    exact hbound
  · intro r g hex hfA hfB hres hvt
    unfold submitReceipt
    rw [if_neg hex, if_neg (by simp [hfA, hfB]), if_neg (by simp [hres])]
    dsimp only
    rw [if_neg (by simpa using (hinv r.wagerId).voted_mem g hvt), if_pos hvt]

theorem claimC4_witness :
    ((getWager s4 1).votesForA + (getWager s4 1).votesForB ≤
      (getWager s4 1).profile.arbitrators.length) ∧
    submitReceipt s4 rY (some 10) = .error .DuplicateReceipt :=
  ⟨((claimC4 s4 reachable_s4).1 1).1,
   (claimC4 s4 reachable_s4).2 rY 10 (by decide) (by decide) (by decide)
     (by decide) (by decide)⟩

/-- C8 counterexample: submitReceipt checks the receipt confidence only
from below against the threshold, never against 10000, so the reachable
state h4 holds a resolved wager whose stored winningConfidenceBps is
20000, above the claimed 0 to 10000 range. -/
theorem claimC8_counterexample :
    Reachable h4 ∧
    (getWager h4 1).resolved = true ∧
    10000 < (getWager h4 1).winningConfidenceBps ∧
    submitReceipt h3 rHi (some 10) =
      .ok (h4, okEvents (submitReceipt h3 rHi (some 10))) ∧
    rHi.confidenceBps = 20000 :=
  ⟨reachable_h4, by decide, by decide, receipt_h4_eq, rfl⟩

/-- C8 amended: every accepted receipt has confidenceBps at least the
wager's threshold, and, since confidenceBps is a uint96 input, below 2 to
the 96; consequently a resolved wager's stored winningConfidenceBps lies
between its threshold and 2 to the 96, but the code enforces no 10000
upper bound. -/
theorem claimC8 (s : JudgeState) (hreach : Reachable s) :
    (∀ id, (getWager s id).resolved = true →
      (getWager s id).profile.confidenceThresholdBps ≤
        (getWager s id).winningConfidenceBps ∧
      (getWager s id).winningConfidenceBps < U96) ∧
    (∀ r rec s' evs, submitReceipt s r rec = .ok (s', evs) →
      (getWager s r.wagerId).profile.confidenceThresholdBps ≤ r.confidenceBps) := by
  have hinv := reachable_inv hreach
  constructor
  · intro id hr
    exact (hinv id).resolved_conf hr
  · intro r rec s' evs h
    obtain ⟨g, hrec, hex, hfA, hfB, hres, harb, hvoted, hconf, hwin, hAfter⟩ :=
      submitReceipt_ok_inv h
    exact hconf

theorem claimC8_witness :
    ((getWager h4 1).profile.confidenceThresholdBps ≤
      (getWager h4 1).winningConfidenceBps ∧
      (getWager h4 1).winningConfidenceBps < U96) ∧
    (getWager h3 rHi.wagerId).profile.confidenceThresholdBps ≤ rHi.confidenceBps :=
  ⟨(claimC8 h4 reachable_h4).1 1 (by decide),
   (claimC8 h3 reachable_h3).2 rHi (some 10) h4
     (okEvents (submitReceipt h3 rHi (some 10))) receipt_h4_eq⟩

end ZeroGravity
